import Mathlib

/-!
Verification of the PaperClip window manager.

Shallow embedding of the window-host state machine from
`src/frontend/src/components/App.js` (window list, active window id,
open/close/focus/minimize/maximize/restore/move/resize, the auto-focus
effect, and the taskbar click dispatch) together with the pointer-gesture
logic of the window frame component (`startDrag`, `startResize`, the
`handleMove` drag/resize handler with its minimum-size clamp).

JavaScript numbers that hold pixel coordinates, sizes and z-indexes are
modelled as `Int`; window ids and types are `String`s; the nullable
`activeWindowId` is an `Option String`.  Each React `setState` call is a
pure state transformation, and the `useEffect` auto-focus hook is applied
once after every host operation (it reaches a fixpoint after a single
application, so this matches the event-loop behaviour).
-/

namespace PaperClip

/-- Per-type default title and size, one row of `DEFAULT_WINDOWS` in App.js. -/
structure WindowDefaults where
  title : String
  width : Int
  height : Int
deriving DecidableEq

/-- The `DEFAULT_WINDOWS` table of App.js (lines 14-29). -/
def DEFAULT_WINDOWS (t : String) : Option WindowDefaults :=
  if t = "chat" then some { title := "Chat v0.98", width := 760, height := 520 }
  else if t = "research" then some { title := "Research Lab v0.98", width := 820, height := 560 }
  else if t = "tools" then some { title := "Tools v0.98", width := 720, height := 520 }
  else if t = "stats" then some { title := "System Monitor v0.98", width := 640, height := 480 }
  else if t = "projects" then some { title := "Projects v0.98", width := 520, height := 420 }
  else if t = "help" then some { title := "Help v0.98", width := 640, height := 480 }
  else if t = "domain_discovery" then some { title := "Domain Discovery", width := 800, height := 550 }
  else if t = "paper_summarizer" then some { title := "Paper Summarizer", width := 800, height := 550 }
  else if t = "professor_finder" then some { title := "Professor Finder", width := 800, height := 550 }
  else if t = "dataset_hub" then some { title := "Dataset Hub", width := 800, height := 550 }
  else if t = "pretrained_models" then some { title := "Model Architect", width := 800, height := 550 }
  else if t = "generate_code" then some { title := "Research Engineer", width := 800, height := 550 }
  else none

/-- One window record, as constructed in `openWindow` (App.js lines 145-158).
The JS records initially carry no `maximized` key; `undefined` is falsy in
every place the flag is read, so it is modelled as `false`. -/
structure WindowRecord where
  id : String
  type : String
  title : String
  width : Int
  height : Int
  x : Int
  y : Int
  minimized : Bool
  maximized : Bool
  zIndex : Int
deriving DecidableEq

/-- The window-host state: the `windows` list and `activeWindowId` of App.js. -/
structure HostState where
  windows : List WindowRecord
  activeWindowId : Option String
deriving DecidableEq

/-- The expression `Math.max(0, ...prev.map((win) => win.zIndex || 0))`.
Model records always carry a `zIndex`, so the `|| 0` default for a missing
key never fires. -/
def maxZ (ws : List WindowRecord) : Int :=
  ws.foldl (fun m w => max m w.zIndex) 0

/-- `bringToFront` (App.js lines 119-125): raise the matching record's
`zIndex` above every existing one and mark the id active. -/
def bringToFront (s : HostState) (id : String) : HostState :=
  { windows :=
      s.windows.map (fun w => if w.id = id then { w with zIndex := maxZ s.windows + 1 } else w),
    activeWindowId := some id }

/-- The record literal appended by `openWindow` when no record of the type
exists (App.js lines 140-158): defaults from `DEFAULT_WINDOWS` with a
generic fallback, cascading offset `30 * prev.length`, id
`type-Date.now()` (the timestamp is the `now` parameter here). -/
def newWindowFor (prev : List WindowRecord) (t : String) (now : Nat) : WindowRecord :=
  { id := t ++ "-" ++ toString now
    type := t
    title := ((DEFAULT_WINDOWS t).getD { title := "Window", width := 680, height := 480 }).title
    width := ((DEFAULT_WINDOWS t).getD { title := "Window", width := 680, height := 480 }).width
    height := ((DEFAULT_WINDOWS t).getD { title := "Window", width := 680, height := 480 }).height
    x := 180 + 30 * (prev.length : Int)
    y := 80 + 30 * (prev.length : Int)
    minimized := false
    maximized := false
    zIndex := maxZ prev + 1 }

/-- `openWindow` (App.js lines 127-160): restore/raise an existing record of
the same type, otherwise append a fresh record. -/
def openWindow (s : HostState) (t : String) (now : Nat) : HostState :=
  match s.windows.find? (fun w => w.type == t) with
  | some _ =>
      { s with
        windows :=
          s.windows.map (fun w =>
            if w.type = t then { w with minimized := false, zIndex := maxZ s.windows + 1 } else w) }
  | none => { s with windows := s.windows ++ [newWindowFor s.windows t now] }

/-- `closeWindow` (App.js lines 162-165): drop the record, clear focus if the
closed id was focused. -/
def closeWindow (s : HostState) (id : String) : HostState :=
  { windows := s.windows.filter (fun w => w.id != id),
    activeWindowId := if s.activeWindowId = some id then none else s.activeWindowId }

/-- `minimizeWindow` (App.js lines 167-170): set the flag, clear focus if the
minimized id was focused. -/
def minimizeWindow (s : HostState) (id : String) : HostState :=
  { windows := s.windows.map (fun w => if w.id = id then { w with minimized := true } else w),
    activeWindowId := if s.activeWindowId = some id then none else s.activeWindowId }

/-- `maximizeWindow` (App.js lines 172-177): toggle `maximized`, clear
`minimized`, then bring to front (the second updater sees the first one's
result). -/
def maximizeWindow (s : HostState) (id : String) : HostState :=
  bringToFront
    { s with
      windows :=
        s.windows.map (fun w =>
          if w.id = id then { w with maximized := !w.maximized, minimized := false } else w) }
    id

/-- `restoreWindow` (App.js lines 179-182): clear `minimized`, then bring to
front. -/
def restoreWindow (s : HostState) (id : String) : HostState :=
  bringToFront
    { s with
      windows := s.windows.map (fun w => if w.id = id then { w with minimized := false } else w) }
    id

/-- `moveWindow` (App.js lines 184-186): `{ ...win, ...pos }` with
`pos = { x, y }`; no maximized check is performed here. -/
def moveWindow (s : HostState) (id : String) (px py : Int) : HostState :=
  { s with windows := s.windows.map (fun w => if w.id = id then { w with x := px, y := py } else w) }

/-- `resizeWindow` (App.js lines 188-190): `{ ...win, ...size }` with
`size = { width, height }`; no clamping and no maximized check here. -/
def resizeWindow (s : HostState) (id : String) (pw ph : Int) : HostState :=
  { s with
    windows :=
      s.windows.map (fun v => if v.id = id then { v with width := pw, height := ph } else v) }

/-- The auto-focus `useEffect` (App.js lines 64-71): when the list is
non-empty and the active id matches no record, focus the last record of the
list.  `null === win.id` is always false in JS, matching the
`Option`-vs-`some` comparison here. -/
def autoFocus (s : HostState) : HostState :=
  if s.windows ≠ [] ∧ ∀ w ∈ s.windows, s.activeWindowId ≠ some w.id then
    { s with activeWindowId := s.windows.getLast?.map (fun w => w.id) }
  else s

/-- The host operations reachable from the UI. -/
inductive HostOp where
  | open_ (t : String) (now : Nat)
  | close (id : String)
  | minimize (id : String)
  | maximize (id : String)
  | restore (id : String)
  | focus (id : String)
  | move (id : String) (px py : Int)
  | resize (id : String) (pw ph : Int)
deriving DecidableEq

/-- Dispatch one host operation (without the auto-focus effect). -/
def applyOp (s : HostState) : HostOp → HostState
  | HostOp.open_ t now => openWindow s t now
  | HostOp.close id => closeWindow s id
  | HostOp.minimize id => minimizeWindow s id
  | HostOp.maximize id => maximizeWindow s id
  | HostOp.restore id => restoreWindow s id
  | HostOp.focus id => bringToFront s id
  | HostOp.move id px py => moveWindow s id px py
  | HostOp.resize id pw ph => resizeWindow s id pw ph

/-- One full host step: the operation followed by the auto-focus effect
(which runs after every commit and reaches a fixpoint in one application). -/
def step (s : HostState) (op : HostOp) : HostState :=
  autoFocus (applyOp s op)

/-- Run a sequence of `open` calls, each `(type, timestamp)`. -/
def runOpens (s : HostState) : List (String × Nat) → HostState
  | [] => s
  | (t, now) :: rest => runOpens (step s (HostOp.open_ t now)) rest

/-- The taskbar button `onClick` (App.js lines 386-396): restore a minimized
window, minimize the active one, otherwise bring to front; followed by the
auto-focus effect. -/
def stepTaskbar (s : HostState) (w : WindowRecord) : HostState :=
  autoFocus
    (if w.minimized then restoreWindow s w.id
     else if s.activeWindowId = some w.id then minimizeWindow s w.id
     else bringToFront s w.id)

/-- A pointer event, carrying `clientX`/`clientY`. -/
structure MouseEvent where
  clientX : Int
  clientY : Int
deriving DecidableEq

/-- The `resizeStart` ref of WindowFrame: starting pointer position and
starting size. -/
structure ResizeStart where
  x : Int
  y : Int
  w : Int
  h : Int
deriving DecidableEq

/-- A call the frame makes into the host during a pointer-move. -/
inductive FrameCmd where
  | moveCmd (px py : Int)
  | resizeCmd (pw ph : Int)
deriving DecidableEq

/-- The `handleMove` listener of WindowFrame (part_002 lines 28-44): while
dragging and not maximized it emits a move to `pointer - dragOffset`; while
resizing and not maximized it emits a resize clamped to the 420x280 floor. -/
def handleMove (dragging resizing maximized : Bool) (dragOffset : Int × Int)
    (resizeStart : ResizeStart) (event : MouseEvent) : List FrameCmd :=
  (if dragging && !maximized then
    [FrameCmd.moveCmd (event.clientX - dragOffset.1) (event.clientY - dragOffset.2)]
  else []) ++
  (if resizing && !maximized then
    [FrameCmd.resizeCmd (max 420 (resizeStart.w + (event.clientX - resizeStart.x)))
      (max 280 (resizeStart.h + (event.clientY - resizeStart.y)))]
  else [])

/-- The `startDrag` handler (part_002 lines 62-68): refuse when minimized or
maximized, otherwise capture the pointer offset relative to the frame's
rendered top-left corner (`rect.left`/`rect.top`, which equal the record's
`x`/`y` when not maximized). -/
def startDrag (minimized maximized : Bool) (rectLeft rectTop : Int)
    (event : MouseEvent) : Option (Int × Int) :=
  if minimized || maximized then none
  else some (event.clientX - rectLeft, event.clientY - rectTop)

/-- The `startResize` handler (part_002 lines 70-81): refuse when maximized,
otherwise capture the pointer position and the starting size. -/
def startResize (maximized : Bool) (startW startH : Int)
    (event : MouseEvent) : Option ResizeStart :=
  if maximized then none
  else some { x := event.clientX, y := event.clientY, w := startW, h := startH }

/-- The empty host state a fresh session starts from. -/
def initState : HostState :=
  { windows := [], activeWindowId := none }

/-- State after `open("chat")` at timestamp 0 from the initial state. -/
def demoS1 : HostState := step initState (HostOp.open_ "chat" 0)

/-- State after `open("chat")` then `open("research")` at timestamp 1. -/
def demoS2 : HostState := step demoS1 (HostOp.open_ "research" 1)

/-- The chat record as it sits in `demoS1` and `demoS2`. -/
def demoChat : WindowRecord :=
  { id := "chat-0", type := "chat", title := "Chat v0.98", width := 760, height := 520,
    x := 180, y := 80, minimized := false, maximized := false, zIndex := 1 }

/-- The research record as it sits in `demoS2`. -/
def demoResearch : WindowRecord :=
  { id := "research-1", type := "research", title := "Research Lab v0.98", width := 820,
    height := 560, x := 210, y := 110, minimized := false, maximized := false, zIndex := 2 }

/-- State after maximizing the chat window in `demoS1`. -/
def demoSMax : HostState := step demoS1 (HostOp.maximize "chat-0")

/-- The maximized chat record as it sits in `demoSMax`. -/
def demoChatMax : WindowRecord :=
  { id := "chat-0", type := "chat", title := "Chat v0.98", width := 760, height := 520,
    x := 180, y := 80, minimized := false, maximized := true, zIndex := 2 }

/-- Records equal in every field except possibly `zIndex`. -/
def sameExceptZIndex (w v : WindowRecord) : Prop :=
  v.id = w.id ∧ v.type = w.type ∧ v.title = w.title ∧ v.width = w.width ∧
  v.height = w.height ∧ v.x = w.x ∧ v.y = w.y ∧ v.minimized = w.minimized ∧
  v.maximized = w.maximized

lemma demoS1_eq : demoS1 = { windows := [demoChat], activeWindowId := some "chat-0" } := by
  decide

lemma demoS2_eq :
    demoS2 = { windows := [demoChat, demoResearch], activeWindowId := some "chat-0" } := by
  decide

lemma demoSMax_eq : demoSMax = { windows := [demoChatMax], activeWindowId := some "chat-0" } := by
  decide

/-! Helper lemmas about `maxZ`, `autoFocus` and the record-updating maps. -/

lemma foldl_max_ge_init (ws : List WindowRecord) (a : Int) :
    a ≤ ws.foldl (fun m w => max m w.zIndex) a := by
  induction ws generalizing a with
  | nil => simp
  | cons v t ih =>
      exact le_trans (le_max_left a v.zIndex) (ih (max a v.zIndex))

lemma foldl_max_ge_mem {ws : List WindowRecord} {w : WindowRecord} (hw : w ∈ ws) (a : Int) :
    w.zIndex ≤ ws.foldl (fun m v => max m v.zIndex) a := by
  induction ws generalizing a with
  | nil => cases hw
  | cons v t ih =>
      rcases List.mem_cons.mp hw with h1 | h2
      · subst h1
        exact le_trans (le_max_right a w.zIndex) (foldl_max_ge_init t (max a w.zIndex))
      · exact ih h2 (max a v.zIndex)

lemma le_maxZ_of_mem {ws : List WindowRecord} {w : WindowRecord} (hw : w ∈ ws) :
    w.zIndex ≤ maxZ ws :=
  foldl_max_ge_mem hw 0

lemma autoFocus_windows (s : HostState) : (autoFocus s).windows = s.windows := by
  unfold autoFocus
  split <;> rfl

lemma autoFocus_of_mem {s : HostState}
    (h : ∃ w ∈ s.windows, s.activeWindowId = some w.id) : autoFocus s = s := by
  unfold autoFocus
  rw [if_neg]
  rintro ⟨-, hall⟩
  obtain ⟨w, hw, he⟩ := h
  exact hall w hw he

lemma autoFocus_fires {s : HostState} (hne : s.windows ≠ [])
    (h : ∀ w ∈ s.windows, s.activeWindowId ≠ some w.id) :
    (autoFocus s).activeWindowId = s.windows.getLast?.map (fun w => w.id) := by
  unfold autoFocus
  rw [if_pos ⟨hne, h⟩]

lemma map_id_of_no_match {l : List WindowRecord} {f : WindowRecord → WindowRecord}
    (h : ∀ a ∈ l, f a = a) : l.map f = l := by
  induction l with
  | nil => rfl
  | cons a t ih =>
      simp only [List.map_cons, h a (List.mem_cons_self a t)]
      rw [ih fun b hb => h b (List.mem_cons_of_mem a hb)]

lemma bringToFront_le (s : HostState) (id : String) :
    ∀ v ∈ (bringToFront s id).windows, v.zIndex ≤ maxZ s.windows + 1 := by
  intro v hv
  unfold bringToFront at hv
  simp only [List.mem_map] at hv
  obtain ⟨a, ha, rfl⟩ := hv
  by_cases hid : a.id = id
  · simp [hid]
  · simp only [hid, if_false]
    exact le_trans (le_maxZ_of_mem ha) (by omega)

lemma bringToFront_eq_of_id (s : HostState) (id : String) :
    ∀ v ∈ (bringToFront s id).windows, v.id = id → v.zIndex = maxZ s.windows + 1 := by
  intro v hv hvid
  unfold bringToFront at hv
  simp only [List.mem_map] at hv
  obtain ⟨a, ha, rfl⟩ := hv
  by_cases hid : a.id = id
  · simp [hid]
  · rw [if_neg hid] at hvid
    exact absurd hvid hid

lemma bringToFront_id_mem {s : HostState} {w : WindowRecord} (hw : w ∈ s.windows) (id : String) :
    ∃ v ∈ (bringToFront s id).windows, v.id = w.id := by
  unfold bringToFront
  by_cases hid : w.id = id
  · exact ⟨{ w with zIndex := maxZ s.windows + 1 },
      List.mem_map.mpr ⟨w, hw, by simp [hid]⟩, by simp [hid]⟩
  · exact ⟨w, List.mem_map.mpr ⟨w, hw, by simp [hid]⟩, rfl⟩

/-! Claim C1.  The stated invariant fails: the auto-focus effect picks the
last record of the list without checking its `minimized` flag, so
minimizing the focused window immediately re-focuses it. -/

/-- Counterexample to C1: open the chat window, then minimize it.  The
auto-focus effect re-focuses the (minimized) chat record, so the focused
id refers to a record whose `minimized` flag is true. -/
theorem minimized_focus_counterexample :
    (step demoS1 (HostOp.minimize "chat-0")).activeWindowId = some "chat-0" ∧
    (step demoS1 (HostOp.minimize "chat-0")).windows =
      [{ demoChat with minimized := true }] := by
  decide

/-- Claim C1, amended: `minimize(id)` on the focused window does clear focus,
but the auto-focus effect then selects the last record of the list
regardless of its `minimized` flag, so the focused id can come to refer to
a minimized record. -/
theorem minimize_focused_refocus (s : HostState) (id : String)
    (hfoc : s.activeWindowId = some id) (hne : s.windows ≠ []) :
    (minimizeWindow s id).activeWindowId = none ∧
    (step s (HostOp.minimize id)).activeWindowId =
      ((minimizeWindow s id).windows.getLast?).map (fun w => w.id) := by
  have hact : (minimizeWindow s id).activeWindowId = none := by
    unfold minimizeWindow
    simp [hfoc]
  refine ⟨hact, ?_⟩
  show (autoFocus (minimizeWindow s id)).activeWindowId = _
  apply autoFocus_fires
  · unfold minimizeWindow
    simpa using hne
  · intro w hw
    rw [hact]
    exact fun h => Option.noConfusion h

/-- Witness for the amended C1 at a concrete input: minimizing the focused
chat window clears focus, and the auto-focus effect re-focuses `chat-0`. -/
theorem minimize_focused_refocus_witness :
    (minimizeWindow demoS1 "chat-0").activeWindowId = none ∧
    (step demoS1 (HostOp.minimize "chat-0")).activeWindowId = some "chat-0" := by
  have h := minimize_focused_refocus demoS1 "chat-0" (by decide) (by decide)
  exact ⟨h.1, h.2.trans (by decide)⟩

/-! Claim C2.  The host `moveWindow`/`resizeWindow` overwrite the fields
unconditionally, even on a maximized record; the ignore-while-maximized
rule lives in the frame's pointer handlers. -/

/-- Counterexample to C2: `demoSMax` holds the maximized chat record at
`x = 180`; the host `move` operation overwrites its position anyway. -/
theorem maximized_move_counterexample :
    demoSMax.windows = [demoChatMax] ∧ demoChatMax.maximized = true ∧
    demoChatMax.x = 180 ∧
    (step demoSMax (HostOp.move "chat-0" 0 0)).windows =
      [{ demoChatMax with x := 0, y := 0 }] := by
  decide

/-- Claim C2, amended: the host `move`/`resize` overwrite the fields even on
a maximized record, but the window frame enforces the rule: the
pointer-move handler emits no move or resize command while `maximized`,
and neither a drag nor a resize gesture can start on a maximized window. -/
theorem maximized_gesture_guard :
    (∀ (dragging resizing : Bool) (dragOffset : Int × Int) (rs : ResizeStart)
      (event : MouseEvent), handleMove dragging resizing true dragOffset rs event = []) ∧
    (∀ (minimized : Bool) (rectLeft rectTop : Int) (event : MouseEvent),
      startDrag minimized true rectLeft rectTop event = none) ∧
    (∀ (startW startH : Int) (event : MouseEvent),
      startResize true startW startH event = none) := by
  refine ⟨?_, ?_, ?_⟩
  · intro dragging resizing dragOffset rs event
    simp [handleMove]
  · intro minimized rectLeft rectTop event
    simp [startDrag]
  · intro startW startH event
    simp [startResize]

/-! Claim C3.  Every resize the frame's pointer handler emits is clamped to
the 420x280 floor before it reaches the host, so a gesture-driven resize
can never store a width below 420 or a height below 280, whatever the
pointer delta. -/

/-- Claim C3: any resize command emitted by the frame's pointer-move handler
carries `width ≥ 420` and `height ≥ 280` (for arbitrary pointer deltas,
including large negative ones), and applying it through the host leaves
the resized record at or above those floors. -/
theorem resize_floor (dragging resizing maximized : Bool) (dragOffset : Int × Int)
    (rs : ResizeStart) (event : MouseEvent) (s : HostState) (id : String) (pw ph : Int)
    (hmem : FrameCmd.resizeCmd pw ph ∈ handleMove dragging resizing maximized dragOffset rs event) :
    420 ≤ pw ∧ 280 ≤ ph ∧
    ∀ v ∈ (resizeWindow s id pw ph).windows, v.id = id → 420 ≤ v.width ∧ 280 ≤ v.height := by
  unfold handleMove at hmem
  rw [List.mem_append] at hmem
  have hw : 420 ≤ pw ∧ 280 ≤ ph := by
    rcases hmem with hmem | hmem
    · split at hmem <;> simp at hmem
    · split at hmem
      · rw [List.mem_singleton] at hmem
        obtain ⟨h1, h2⟩ := FrameCmd.resizeCmd.inj hmem
        constructor
        · rw [h1]; exact le_max_left _ _
        · rw [h2]; exact le_max_left _ _
      · simp at hmem
  refine ⟨hw.1, hw.2, ?_⟩
  intro v hv hvid
  unfold resizeWindow at hv
  simp only [List.mem_map] at hv
  obtain ⟨a, ha, rfl⟩ := hv
  by_cases hid : a.id = id
  · simp only [hid, if_true]
    exact hw
  · rw [if_neg hid] at hvid
    exact absurd hvid hid

/-- Witness for C3 at a concrete input: a resize gesture started at size
500x300 and dragged 1000 pixels up and left emits exactly the clamped
420x280 command. -/
theorem resize_floor_witness :
    FrameCmd.resizeCmd 420 280 ∈
      handleMove false true false (0, 0) { x := 0, y := 0, w := 500, h := 300 }
        { clientX := -1000, clientY := -1000 } ∧
    420 ≤ (420 : Int) ∧ 280 ≤ (280 : Int) := by
  have h := resize_floor false true false (0, 0) { x := 0, y := 0, w := 500, h := 300 }
    { clientX := -1000, clientY := -1000 } demoS1 "chat-0" 420 280 (by decide)
  exact ⟨by decide, h.1, h.2.1⟩

/-! Claim C9.  Drag arithmetic: the captured offset is the pointer position
minus the frame's top-left at drag start, and every later pointer-move
emits a move to the pointer position minus that offset. -/

/-- Claim C9: `startDrag` captures `pointer - topLeft`, every pointer-move in
dragging mode emits `pointer - offset`, and in the concrete scenario a
window at (100,100) grabbed at (120,115) and dragged to (200,115) is
moved to (180,100). -/
theorem drag_move_offset :
    (∀ (rectLeft rectTop : Int) (down : MouseEvent),
      startDrag false false rectLeft rectTop down =
        some (down.clientX - rectLeft, down.clientY - rectTop)) ∧
    (∀ (dragOffset : Int × Int) (rs : ResizeStart) (event : MouseEvent),
      handleMove true false false dragOffset rs event =
        [FrameCmd.moveCmd (event.clientX - dragOffset.1) (event.clientY - dragOffset.2)]) ∧
    (startDrag false false 100 100 { clientX := 120, clientY := 115 } = some (20, 15) ∧
      handleMove true false false (20, 15) { x := 0, y := 0, w := 0, h := 0 }
        { clientX := 200, clientY := 115 } = [FrameCmd.moveCmd 180 100]) := by
  refine ⟨?_, ?_, by decide, by decide⟩
  · intro rectLeft rectTop down
    simp [startDrag]
  · intro dragOffset rs event
    simp [handleMove]

/-! Claim C4.  Operations taking an id never touch the window list when the
id is absent, and close/minimize/move/resize are complete no-ops.  But
`bringToFront` (and hence focus/maximize/restore) unconditionally marks
the given id active, and the auto-focus effect then redirects focus to the
last window of the list — so `focus` on an absent id can change the
focused window. -/

/-- Counterexample to C4: in `demoS2` the chat window is focused and no
record has id "ghost", yet `focus("ghost")` moves focus to the research
window. -/
theorem absent_focus_counterexample :
    demoS2.windows.all (fun w => w.id != "ghost") = true ∧
    demoS2.activeWindowId = some "chat-0" ∧
    (step demoS2 (HostOp.focus "ghost")).windows = demoS2.windows ∧
    (step demoS2 (HostOp.focus "ghost")).activeWindowId = some "research-1" := by
  decide

/-- Claim C4, amended: on an id matching no record, `close`, `minimize`,
`move` and `resize` leave the whole state unchanged, and `focus`,
`maximize` and `restore` leave the window list unchanged but set the
focused id, which the auto-focus effect then redirects to the last window
of the (non-empty) list; no operation raises an error. -/
theorem absent_id_ops (s : HostState) (id : String)
    (hstable : autoFocus s = s)
    (habs : ∀ w ∈ s.windows, w.id ≠ id)
    (hval : s.activeWindowId ≠ some id) :
    step s (HostOp.close id) = s ∧
    step s (HostOp.minimize id) = s ∧
    (∀ px py, step s (HostOp.move id px py) = s) ∧
    (∀ pw ph, step s (HostOp.resize id pw ph) = s) ∧
    (step s (HostOp.focus id)).windows = s.windows ∧
    (step s (HostOp.maximize id)).windows = s.windows ∧
    (step s (HostOp.restore id)).windows = s.windows ∧
    (s.windows ≠ [] →
      (step s (HostOp.focus id)).activeWindowId = s.windows.getLast?.map (fun w => w.id) ∧
      (step s (HostOp.maximize id)).activeWindowId = s.windows.getLast?.map (fun w => w.id) ∧
      (step s (HostOp.restore id)).activeWindowId = s.windows.getLast?.map (fun w => w.id)) := by
  have hmapid : ∀ (g : WindowRecord → WindowRecord),
      (∀ a, a.id ≠ id → g a = a) → s.windows.map g = s.windows := by
    intro g hg
    exact map_id_of_no_match fun a ha => hg a (habs a ha)
  have hclose : closeWindow s id = s := by
    unfold closeWindow
    have h1 : s.windows.filter (fun w => w.id != id) = s.windows := by
      rw [List.filter_eq_self]
      intro a ha
      simpa using habs a ha
    have h2 : (if s.activeWindowId = some id then none else s.activeWindowId) =
        s.activeWindowId := if_neg hval
    rw [h1, h2]
  have hmin : minimizeWindow s id = s := by
    unfold minimizeWindow
    have h1 := hmapid (fun w => if w.id = id then { w with minimized := true } else w)
      (fun a ha => if_neg ha)
    have h2 : (if s.activeWindowId = some id then none else s.activeWindowId) =
        s.activeWindowId := if_neg hval
    rw [h1, h2]
  have hbtf : bringToFront s id =
      { windows := s.windows, activeWindowId := some id } := by
    unfold bringToFront
    rw [hmapid _ (fun a ha => if_neg ha)]
  have hbtfActive : s.windows ≠ [] →
      (autoFocus { windows := s.windows, activeWindowId := some id }).activeWindowId =
        s.windows.getLast?.map (fun w => w.id) := by
    intro hne
    refine autoFocus_fires (s := { windows := s.windows, activeWindowId := some id }) hne ?_
    intro w hw he
    exact habs w hw (Option.some.inj he).symm
  have hmaxmap : maximizeWindow s id = { windows := s.windows, activeWindowId := some id } := by
    unfold maximizeWindow
    rw [show ({ s with windows := s.windows.map (fun w =>
        if w.id = id then { w with maximized := !w.maximized, minimized := false } else w) } :
        HostState) = s by
      rw [hmapid _ (fun a ha => if_neg ha)]]
    exact hbtf
  have hrestmap : restoreWindow s id = { windows := s.windows, activeWindowId := some id } := by
    unfold restoreWindow
    rw [show ({ s with windows := s.windows.map (fun w =>
        if w.id = id then { w with minimized := false } else w) } : HostState) = s by
      rw [hmapid _ (fun a ha => if_neg ha)]]
    exact hbtf
  refine ⟨?_, ?_, ?_, ?_, ?_, ?_, ?_, ?_⟩
  · show autoFocus (closeWindow s id) = s
    rw [hclose, hstable]
  · show autoFocus (minimizeWindow s id) = s
    rw [hmin, hstable]
  · intro px py
    show autoFocus (moveWindow s id px py) = s
    unfold moveWindow
    rw [hmapid _ (fun a ha => if_neg ha)]
    exact hstable
  · intro pw ph
    show autoFocus (resizeWindow s id pw ph) = s
    unfold resizeWindow
    rw [hmapid _ (fun a ha => if_neg ha)]
    exact hstable
  · show (autoFocus (bringToFront s id)).windows = s.windows
    rw [hbtf, autoFocus_windows]
  · show (autoFocus (maximizeWindow s id)).windows = s.windows
    rw [hmaxmap, autoFocus_windows]
  · show (autoFocus (restoreWindow s id)).windows = s.windows
    rw [hrestmap, autoFocus_windows]
  · intro hne
    refine ⟨?_, ?_, ?_⟩
    · show (autoFocus (bringToFront s id)).activeWindowId = _
      rw [hbtf]
      exact hbtfActive hne
    · show (autoFocus (maximizeWindow s id)).activeWindowId = _
      rw [hmaxmap]
      exact hbtfActive hne
    · show (autoFocus (restoreWindow s id)).activeWindowId = _
      rw [hrestmap]
      exact hbtfActive hne

/-- Witness for the amended C4 at a concrete input: in `demoS2` the id
"ghost" is absent, so close/minimize/move are no-ops and `focus("ghost")`
ends with the research window focused. -/
theorem absent_id_ops_witness :
    step demoS2 (HostOp.close "ghost") = demoS2 ∧
    step demoS2 (HostOp.minimize "ghost") = demoS2 ∧
    step demoS2 (HostOp.move "ghost" 1 2) = demoS2 ∧
    (step demoS2 (HostOp.focus "ghost")).activeWindowId = some "research-1" := by
  have h := absent_id_ops demoS2 "ghost" (by decide) (by decide) (by decide)
  exact ⟨h.1, h.2.1, h.2.2.1 1 2, ((h.2.2.2.2.2.2.2 (by decide)).1).trans (by decide)⟩

/-! Claim C5.  Opening a type with no existing record appends exactly the
specified record, but it becomes the focused window only when no currently
listed window is focused: `openWindow` never touches `activeWindowId`, and
the auto-focus effect leaves a still-valid focus alone. -/

/-- Counterexample to C5: opening "research" while the chat window is focused
appends the new record but leaves the chat window focused, so the new
record does not become the focused window. -/
theorem open_focus_counterexample :
    demoS1.windows.all (fun w => w.type != "research") = true ∧
    demoS1.activeWindowId = some "chat-0" ∧
    demoS2.windows = demoS1.windows ++ [demoResearch] ∧
    demoResearch.id = "research-1" ∧
    demoS2.activeWindowId = some "chat-0" ∧
    some "research-1" ≠ demoS2.activeWindowId := by
  decide

/-- Claim C5, amended: `open(type)` with no existing record of that type
appends a single record built from the per-type default table (generic
default for unknown types), at position `(180 + 30 n, 80 + 30 n)` for `n`
the prior window count, with `zIndex = max(0, existing zIndexes) + 1`; it
becomes the focused window only when the previously focused id matches no
listed window, and focus is unchanged otherwise. -/
theorem open_new_type (s : HostState) (t : String) (now : Nat)
    (habs : ∀ w ∈ s.windows, w.type ≠ t) :
    (step s (HostOp.open_ t now)).windows = s.windows ++ [newWindowFor s.windows t now] ∧
    ((∃ w ∈ s.windows, s.activeWindowId = some w.id) →
      (step s (HostOp.open_ t now)).activeWindowId = s.activeWindowId) ∧
    ((∀ w ∈ s.windows, s.activeWindowId ≠ some w.id) →
      (step s (HostOp.open_ t now)).activeWindowId = some (t ++ "-" ++ toString now)) := by
  have hfind : s.windows.find? (fun w => w.type == t) = none := by
    rw [List.find?_eq_none]
    intro a ha
    simpa using habs a ha
  have hopen : openWindow s t now = { s with windows := s.windows ++ [newWindowFor s.windows t now] } := by
    unfold openWindow
    rw [hfind]
  refine ⟨?_, ?_, ?_⟩
  · show (autoFocus (openWindow s t now)).windows = _
    rw [hopen, autoFocus_windows]
  · rintro ⟨w, hw, he⟩
    show (autoFocus (openWindow s t now)).activeWindowId = _
    have h1 : autoFocus ({ windows := s.windows ++ [newWindowFor s.windows t now],
                           activeWindowId := s.activeWindowId } : HostState) =
        ({ windows := s.windows ++ [newWindowFor s.windows t now],
           activeWindowId := s.activeWindowId } : HostState) :=
      autoFocus_of_mem ⟨w, List.mem_append_left _ hw, he⟩
    rw [hopen, h1]
  · intro hstale
    show (autoFocus (openWindow s t now)).activeWindowId = _
    rw [hopen]
    by_cases hx : s.activeWindowId = some (newWindowFor s.windows t now).id
    · have h1 : autoFocus ({ windows := s.windows ++ [newWindowFor s.windows t now],
                             activeWindowId := s.activeWindowId } : HostState) =
          ({ windows := s.windows ++ [newWindowFor s.windows t now],
             activeWindowId := s.activeWindowId } : HostState) :=
        autoFocus_of_mem ⟨newWindowFor s.windows t now,
          List.mem_append_right _ (List.mem_singleton_self _), hx⟩
      rw [h1]
      exact hx
    · have hall : ∀ w ∈ ({ windows := s.windows ++ [newWindowFor s.windows t now],
                           activeWindowId := s.activeWindowId } : HostState).windows,
          ({ windows := s.windows ++ [newWindowFor s.windows t now],
             activeWindowId := s.activeWindowId } : HostState).activeWindowId ≠ some w.id := by
        intro w hw
        rcases List.mem_append.mp hw with hmem | hmem
        · exact hstale w hmem
        · rw [List.mem_singleton.mp hmem]
          exact hx
      have h2 := autoFocus_fires
        (s := { windows := s.windows ++ [newWindowFor s.windows t now],
                activeWindowId := s.activeWindowId }) (by simp) hall
      rw [h2]
      show (s.windows ++ [newWindowFor s.windows t now]).getLast?.map (fun w => w.id) = _
      rw [List.getLast?_concat]
      rfl

/-- Witness for the amended C5 at a concrete input: opening "research" in
`demoS1` appends exactly `newWindowFor` and keeps the chat window
focused. -/
theorem open_new_type_witness :
    (step demoS1 (HostOp.open_ "research" 1)).windows =
      demoS1.windows ++ [newWindowFor demoS1.windows "research" 1] ∧
    (step demoS1 (HostOp.open_ "research" 1)).activeWindowId = some "chat-0" := by
  have h := open_new_type demoS1 "research" 1 (by decide)
  exact ⟨h.1, (h.2.1 (by decide)).trans (by decide)⟩

/-! Claim C6.  Opening an already-open type keeps the list duplicate-free and
only touches the existing record's `minimized`/`zIndex`. -/

lemma map_type_pres {l : List WindowRecord} {f : WindowRecord → WindowRecord}
    (hf : ∀ a, (f a).type = a.type) :
    (l.map f).map (fun w => w.type) = l.map (fun w => w.type) := by
  induction l with
  | nil => rfl
  | cons a tl ih =>
      simp only [List.map_cons]
      rw [hf a, ih]

lemma openWindow_types_nodup {s : HostState}
    (h : (s.windows.map (fun w => w.type)).Nodup) (t : String) (now : Nat) :
    (((openWindow s t now).windows).map (fun w => w.type)).Nodup := by
  rcases hf : s.windows.find? (fun w => w.type == t) with _ | u
  · have habs : ∀ w ∈ s.windows, w.type ≠ t := by
      intro w hw
      have := List.find?_eq_none.mp hf w hw
      simpa using this
    unfold openWindow
    rw [hf]
    show ((s.windows ++ [newWindowFor s.windows t now]).map (fun w => w.type)).Nodup
    rw [List.map_append]
    refine List.Nodup.append h (List.nodup_singleton t) ?_
    intro a ha hb
    have hbt : a = t := by simpa [newWindowFor] using hb
    subst hbt
    obtain ⟨w, hw, hwt⟩ := List.mem_map.mp ha
    exact habs w hw hwt
  · unfold openWindow
    rw [hf]
    show (((s.windows.map (fun w =>
      if w.type = t then { w with minimized := false, zIndex := maxZ s.windows + 1 } else w)).map
        (fun w => w.type))).Nodup
    rw [map_type_pres]
    · exact h
    · intro a
      by_cases ht : a.type = t
      · rw [if_pos ht]
      · rw [if_neg ht]

lemma runOpens_types_nodup (l : List (String × Nat)) :
    ∀ s : HostState, (s.windows.map (fun w => w.type)).Nodup →
      (((runOpens s l).windows).map (fun w => w.type)).Nodup := by
  induction l with
  | nil => intro s h; exact h
  | cons p rest ih =>
      intro s h
      rcases p with ⟨t, now⟩
      show (((runOpens (step s (HostOp.open_ t now)) rest).windows).map (fun w => w.type)).Nodup
      apply ih
      show (((autoFocus (openWindow s t now)).windows).map (fun w => w.type)).Nodup
      rw [autoFocus_windows]
      exact openWindow_types_nodup h t now

/-- Claim C6: after any sequence of `open` calls from the initial state the
window list holds pairwise-distinct types, and an `open(type)` call with an
existing record of that type creates no new record — it maps the list,
clearing `minimized` and raising `zIndex` to `max + 1` on the matching
record and leaving every other record (and every other field) unchanged. -/
theorem open_type_unique :
    (∀ l : List (String × Nat),
      (((runOpens initState l).windows).map (fun w => w.type)).Nodup) ∧
    (∀ (s : HostState) (t : String) (now : Nat), (∃ w ∈ s.windows, w.type = t) →
      (step s (HostOp.open_ t now)).windows =
        s.windows.map (fun w =>
          if w.type = t then { w with minimized := false, zIndex := maxZ s.windows + 1 } else w)) := by
  constructor
  · intro l
    exact runOpens_types_nodup l initState List.nodup_nil
  · rintro s t now ⟨w, hw, ht⟩
    show (autoFocus (openWindow s t now)).windows = _
    rw [autoFocus_windows]
    unfold openWindow
    rcases hf : s.windows.find? (fun v => v.type == t) with _ | u
    · exfalso
      have := List.find?_eq_none.mp hf w hw
      simp [ht] at this
    · rw [hf]

/-- Witness for C6 at a concrete input: re-opening "chat" in `demoS1` keeps
one record and only raises its `zIndex` to 2. -/
theorem open_type_unique_witness :
    (step demoS1 (HostOp.open_ "chat" 5)).windows = [{ demoChat with zIndex := 2 }] := by
  have h := open_type_unique.2 demoS1 "chat" 5 ⟨demoChat, by decide, by decide⟩
  exact h.trans (by decide)

/-! Claim C7.  `focus(id)` on a present id gives that record the maximal
`zIndex` and changes nothing else. -/

/-- A bring-to-front rooted operation on a state containing the id ends with
that id focused: the auto-focus effect finds it and changes nothing. -/
lemma autoFocus_bringToFront_active {s : HostState} {id : String}
    (hmem : ∃ v ∈ s.windows, v.id = id) :
    (autoFocus (bringToFront s id)).activeWindowId = some id := by
  obtain ⟨v, hv, hvid⟩ := hmem
  obtain ⟨u, hu, huid⟩ := bringToFront_id_mem hv id
  have h1 : autoFocus (bringToFront s id) = bringToFront s id :=
    autoFocus_of_mem ⟨u, hu, by rw [huid, hvid]; rfl⟩
  rw [h1]
  rfl

/-- Claim C7: after `focus(id)` with the id present, the matching record
holds the maximum `zIndex` across the whole list, and every record keeps
all fields except that the matching one's `zIndex` becomes `max + 1`. -/
theorem focus_zIndex_max (s : HostState) (id : String)
    (_hpres : ∃ w ∈ s.windows, w.id = id) :
    List.Forall₂
      (fun w v =>
        if w.id = id then sameExceptZIndex w v ∧ v.zIndex = maxZ s.windows + 1 else v = w)
      s.windows (step s (HostOp.focus id)).windows ∧
    ∀ v ∈ (step s (HostOp.focus id)).windows, v.id = id →
      ∀ u ∈ (step s (HostOp.focus id)).windows, u.zIndex ≤ v.zIndex := by
  have hstep : (step s (HostOp.focus id)).windows = (bringToFront s id).windows := by
    show (autoFocus (bringToFront s id)).windows = _
    rw [autoFocus_windows]
  constructor
  · rw [hstep]
    show List.Forall₂ _ s.windows
      (s.windows.map (fun w => if w.id = id then { w with zIndex := maxZ s.windows + 1 } else w))
    rw [List.forall₂_map_right_iff, List.forall₂_same]
    intro a ha
    by_cases hid : a.id = id
    · rw [if_pos hid, if_pos hid]
      exact ⟨by simp [sameExceptZIndex], rfl⟩
    · rw [if_neg hid, if_neg hid]
  · rw [hstep]
    intro v hv hvid u hu
    rw [bringToFront_eq_of_id s id v hv hvid]
    exact bringToFront_le s id u hu

/-- Witness for C7 at a concrete input: after focusing "chat-0" in `demoS2`
the research record's `zIndex` is bounded by the chat record's new
`zIndex`. -/
theorem focus_zIndex_max_witness :
    demoResearch.zIndex ≤ ({ demoChat with zIndex := 3 } : WindowRecord).zIndex := by
  have h := focus_zIndex_max demoS2 "chat-0" ⟨demoChat, by decide, by decide⟩
  exact h.2 { demoChat with zIndex := 3 } (by decide) (by decide) demoResearch (by decide)

/-! Claim C8.  Closing the focused window clears focus; the auto-focus effect
then focuses the last remaining record in creation order, or leaves focus
cleared when the list became empty. -/

/-- Claim C8: after `close(id)` of the focused window, the list is the
original minus the matching records; if the result is empty focus is
cleared, otherwise the focused id is the last record's id (the most
recently created remaining window). -/
theorem close_focused_autofocus (s : HostState) (id : String)
    (hfoc : s.activeWindowId = some id) :
    (step s (HostOp.close id)).windows = s.windows.filter (fun w => w.id != id) ∧
    ((step s (HostOp.close id)).windows = [] →
      (step s (HostOp.close id)).activeWindowId = none) ∧
    ((step s (HostOp.close id)).windows ≠ [] →
      (step s (HostOp.close id)).activeWindowId =
        ((step s (HostOp.close id)).windows.getLast?).map (fun w => w.id)) := by
  have hclose : closeWindow s id =
      { windows := s.windows.filter (fun w => w.id != id), activeWindowId := none } := by
    unfold closeWindow
    rw [if_pos hfoc]
  have hwin : (step s (HostOp.close id)).windows = s.windows.filter (fun w => w.id != id) := by
    show (autoFocus (closeWindow s id)).windows = _
    rw [hclose, autoFocus_windows]
  refine ⟨hwin, ?_, ?_⟩
  · intro hnil
    rw [hwin] at hnil
    show (autoFocus (closeWindow s id)).activeWindowId = none
    rw [hclose, hnil]
    decide
  · intro hne
    rw [hwin] at hne
    show (autoFocus (closeWindow s id)).activeWindowId = _
    rw [hwin, hclose]
    exact autoFocus_fires
      (s := { windows := s.windows.filter (fun w => w.id != id), activeWindowId := none })
      hne (fun w _ h => Option.noConfusion h)

/-- Witness for C8 at a concrete input: open chat, open research, close the
focused chat window; the research window (last in creation order) becomes
focused. -/
theorem close_focused_autofocus_witness :
    (step demoS2 (HostOp.close "chat-0")).activeWindowId = some "research-1" := by
  have h := close_focused_autofocus demoS2 "chat-0" (by decide)
  exact (h.2.2 (by decide)).trans (by decide)

/-! Claim C10.  The taskbar button dispatch: restore when minimized, minimize
when focused, bring to front otherwise. -/

lemma restore_clears_flag (s : HostState) (id : String) :
    ∀ v ∈ (restoreWindow s id).windows, v.id = id → v.minimized = false := by
  intro v hv hvid
  unfold restoreWindow bringToFront at hv
  simp only [List.mem_map] at hv
  obtain ⟨a, ⟨b, hb, rfl⟩, rfl⟩ := hv
  by_cases hbid : b.id = id
  · simp [hbid]
  · rw [if_neg hbid, if_neg hbid] at hvid
    exact absurd hvid hbid

lemma minimize_sets_flag (s : HostState) (id : String) :
    ∀ v ∈ (minimizeWindow s id).windows, v.id = id → v.minimized = true := by
  intro v hv hvid
  unfold minimizeWindow at hv
  simp only [List.mem_map] at hv
  obtain ⟨a, ha, rfl⟩ := hv
  by_cases haid : a.id = id
  · simp [haid]
  · rw [if_neg haid] at hvid
    exact absurd hvid haid

/-- Claim C10: a taskbar click on window `w` performs exactly one of three
actions — if `w` is minimized it restores it (clearing `minimized`, making
it focused, raising it to the top of the z-order); otherwise if `w` is the
focused window it minimizes it; otherwise it brings it to front as the
focused window. -/
theorem taskbar_click_cases (s : HostState) (w : WindowRecord) (hw : w ∈ s.windows) :
    (w.minimized = true →
      stepTaskbar s w = step s (HostOp.restore w.id) ∧
      (stepTaskbar s w).activeWindowId = some w.id ∧
      ∀ v ∈ (stepTaskbar s w).windows, v.id = w.id →
        v.minimized = false ∧ ∀ u ∈ (stepTaskbar s w).windows, u.zIndex ≤ v.zIndex) ∧
    (w.minimized = false → s.activeWindowId = some w.id →
      stepTaskbar s w = step s (HostOp.minimize w.id) ∧
      ∀ v ∈ (stepTaskbar s w).windows, v.id = w.id → v.minimized = true) ∧
    (w.minimized = false → s.activeWindowId ≠ some w.id →
      stepTaskbar s w = step s (HostOp.focus w.id) ∧
      (stepTaskbar s w).activeWindowId = some w.id) := by
  refine ⟨?_, ?_, ?_⟩
  · intro hmin
    have hdisp : stepTaskbar s w = autoFocus (restoreWindow s w.id) := by
      unfold stepTaskbar
      rw [hmin]
      simp
    have hwins : (stepTaskbar s w).windows = (restoreWindow s w.id).windows := by
      rw [hdisp]
      exact autoFocus_windows _
    refine ⟨hdisp, ?_, ?_⟩
    · rw [hdisp]
      exact autoFocus_bringToFront_active
        ⟨(fun v => if v.id = w.id then { v with minimized := false } else v) w,
          List.mem_map_of_mem _ hw, by simp⟩
    · rw [hwins]
      intro v hv hvid
      refine ⟨restore_clears_flag s w.id v hv hvid, ?_⟩
      intro u hu
      rw [bringToFront_eq_of_id _ w.id v hv hvid]
      exact bringToFront_le _ w.id u hu
  · intro hmin hact
    have hdisp : stepTaskbar s w = autoFocus (minimizeWindow s w.id) := by
      unfold stepTaskbar
      rw [hmin, hact]
      simp
    have hwins : (stepTaskbar s w).windows = (minimizeWindow s w.id).windows := by
      rw [hdisp]
      exact autoFocus_windows _
    refine ⟨hdisp, ?_⟩
    rw [hwins]
    exact minimize_sets_flag s w.id
  · intro hmin hnact
    have hdisp : stepTaskbar s w = autoFocus (bringToFront s w.id) := by
      unfold stepTaskbar
      rw [hmin, if_neg hnact]
      simp
    refine ⟨hdisp, ?_⟩
    rw [hdisp]
    exact autoFocus_bringToFront_active ⟨w, hw, rfl⟩

/-- Witness for C10 at a concrete input: the chat window in `demoS1` is not
minimized and is focused, so a taskbar click minimizes it. -/
theorem taskbar_click_cases_witness :
    stepTaskbar demoS1 demoChat = step demoS1 (HostOp.minimize demoChat.id) := by
  have h := taskbar_click_cases demoS1 demoChat (by decide)
  exact (h.2.1 (by decide) (by decide)).1

end PaperClip
